import Mathlib

/-!
# Verification of the client-zone portal's data-access and pricing logic

This file gives a shallow embedding, in Lean 4, of the JavaScript/TypeScript
functions of the client-zone repository that the frozen claims are about:

* the truthiness-based EAV column selection (`getBatchEavEntityData`,
  `getCalculationById` in `src/lib/db.ts`),
* the per-service status derivation (`getRealStatus` in `src/lib/db.ts`),
* the legacy pricing reconstruction (`getCalculationProducts`),
* the flattened-attribute reconstruction (`getCalculationByShareToken`),
* the quote-response recording (`updateQuoteResponse`) and its webhook,
* the session token pair (`createSessionToken` / `parseSessionToken`),
* the login route (`POST /api/auth/login`),
* the PDF route's total/VAT computation, and
* the translation / logo caches (`translateText`, `getLogoBase64`).

JavaScript numbers are modelled as rationals (`ℚ`); a field that may be
absent or hold a non-numeric value that `Number(...)` turns into `NaN` is an
`Option ℚ` whose `none` covers both.  JavaScript values in general are
modelled by the inductive `JVal`, with `Option JVal` distinguishing
`undefined` (`none`) where needed.  External collaborators (the SQL driver,
`JSON.parse`, base64, the translation HTTP API, the file system) are either
parameters of the embedded functions or modelled by their interface.
-/

namespace ClientZone

/-! ## JavaScript value model -/

/-- A JavaScript (JSON-like) runtime value: strings, numbers, booleans,
`null`, arrays and plain objects (ordered field lists). -/
inductive JVal where
  | str (s : String)
  | num (q : ℚ)
  | bool (b : Bool)
  | null
  | arr (elems : List JVal)
  | obj (fields : List (String × JVal))

/-- JavaScript truthiness of a value: `""`, `0`, `false` and `null` are
falsy; every other string/number/boolean, and every object or array, is
truthy. -/
def JVal.truthy : JVal → Bool
  | .str s => !s.isEmpty
  | .num q => decide (q ≠ 0)
  | .bool b => b
  | .null => false
  | .arr _ => true
  | .obj _ => true

/-- JavaScript `a || b` on possibly-`undefined` values (`none` stands for
`undefined`/SQL `NULL`): returns `a` when truthy, otherwise `b`. -/
def jsOrV : Option JVal → Option JVal → Option JVal
  | some v, b => if v.truthy then some v else b
  | none, b => b

/-- A chain `a₁ || a₂ || ... || aₙ`: the value of the first truthy operand,
or the value of the last operand when every operand is falsy (this is the
JavaScript result: the last operand is returned as-is even when falsy). -/
def jsOrChain : List (Option JVal) → Option JVal
  | [] => none
  | [o] => o
  | o :: t => jsOrV o (jsOrChain t)

/-- JavaScript `x || d` on an optional number, as produced by patterns like
`Number(raw) || d`: absent (`undefined`) and non-numeric (`NaN`) inputs are
`none` and give the default, a stored `0` is falsy and also gives the
default. -/
def jsOrQ (o : Option ℚ) (d : ℚ) : ℚ :=
  match o with
  | some v => if v = 0 then d else v
  | none => d

/-- A chain `x₁ || x₂ || ... || 0` over optional numbers: the first
present non-zero value, or `0`. -/
def firstTruthyQ : List (Option ℚ) → ℚ
  | [] => 0
  | o :: t =>
    match o with
    | some v => if v = 0 then firstTruthyQ t else v
    | none => firstTruthyQ t

/-- JavaScript `a || d` on an optional string (`'' `is falsy). -/
def jsOrStr (o : Option String) (d : String) : String :=
  match o with
  | some s => if s = "" then d else s
  | none => d

/-! ## Association lists standing for JavaScript objects

`data[k] = v` replaces the value of an existing key in place and appends a
fresh key at the end, which is what `setKeyJ` does; reading `data[k]` is
`List.lookup`. -/

/-- JavaScript property assignment `o[k] = v` (and `Map.set`) on an object
modelled as an ordered field list: replaces an existing key in place,
appends a fresh key at the end. -/
def setKey {α : Type} : List (String × α) → String → α → List (String × α)
  | [], k, v => [(k, v)]
  | (k', v') :: t, k, v =>
    if k' = k then (k, v) :: t else (k', v') :: setKey t k v

/-! ## C10: EAV attribute loaders (`src/lib/db.ts`)

`getBatchEavEntityData` (lines 816–834) and `getCalculationById`
(lines 1119–1123) both turn an attribute row into a value with

`data[name] = row.string_value || row.number_value || row.boolean_value
             || row.date_value || row.json_value;` -/

/-- One row of the `attributes` table as the SQL driver delivers it to the
EAV loaders: each value column is either `NULL` (`none`) or a value of the
column's type (`json_value` is a TEXT column, hence a string). -/
structure AttrRow where
  attribute_name : String
  string_value : Option String
  number_value : Option ℚ
  boolean_value : Option Bool
  date_value : Option ℚ
  json_value : Option String

/-- The five value columns of a row, in the order the loaders consult them. -/
def AttrRow.columns (r : AttrRow) : List (Option JVal) :=
  [r.string_value.map .str, r.number_value.map .num, r.boolean_value.map .bool,
   r.date_value.map .num, r.json_value.map .str]

/-- The value the EAV loaders take from a row:
`string_value || number_value || boolean_value || date_value || json_value`. -/
def eavRowValue (r : AttrRow) : Option JVal :=
  jsOrChain r.columns

/-- One step of the loader loop: `data[name] = <row value>`.  A falsy chain
result (`null`/`undefined`) is stored as `JVal.null`. -/
def loadEavRow (data : List (String × JVal)) (r : AttrRow) : List (String × JVal) :=
  setKey data r.attribute_name ((eavRowValue r).getD .null)

/-- The record `getCalculationById` builds from an entity's attribute rows,
starting from `{ id: calculationId }`. -/
def getCalculationByIdData (calculationId : String) (rows : List AttrRow) :
    List (String × JVal) :=
  rows.foldl loadEavRow [("id", .str calculationId)]

/-- `getBatchEavEntityData`: folds the rows of several entities into one
record per entity id (rows paired with their `entity_id`). -/
def getBatchEavEntityData (rows : List (String × AttrRow)) :
    List (String × List (String × JVal)) :=
  rows.foldl
    (fun m er =>
      let data := (m.lookup er.1).getD []
      setKey m er.1 (loadEavRow data er.2))
    []

/-! ## C9: `getRealStatus` (`src/lib/db.ts`, lines 281–326)

The caller passes the list of task statuses collected for the service (an
absent map entry and an empty list both yield the stored status). -/

/-- `getRealStatus` from `getOrderServices`: derive a service's status from
its tasks' statuses, keeping the stored status when there are no tasks. -/
def getRealStatus (taskStatuses : List String) (originalStatus : String) : String :=
  if taskStatuses.isEmpty then originalStatus
  else if taskStatuses.all (fun s => s == "completed") then "completed"
  else if taskStatuses.any (fun s => s == "in_progress") then "in_progress"
  else if taskStatuses.any (fun s => s == "completed") then "in_progress"
  else "pending"

/-! ## C1: `getCalculationProducts` pricing reconstruction
(`src/unnamed/part_005`, lines 926–1086)

The DB loading and the product-name assembly are orthogonal to the claim;
the embedded functions cover the price computation applied to the decoded
inputs: the optional `globalPricingBreakdown`, the optional
`totalPrice`/`actualTotalPrice` attributes, and the decoded product list. -/

/-- `calculationData.globalPricingBreakdown` fields used by the pricing
code.  Each field is `none` when absent or when `Number(...)` would give
`NaN`. -/
structure GlobalPricingBreakdown where
  clientMultiplier : Option ℚ
  deliveryMultiplier : Option ℚ
  finalPrice : Option ℚ
  originalPrice : Option ℚ

/-- The legacy price fields of one decoded product. -/
structure CalcProduct where
  globalAdjustedPrice : Option ℚ
  adjustedPrice : Option ℚ
  totalSale : Option ℚ
  originalSalePrice : Option ℚ
  salePrice : Option ℚ
  finalPrice : Option ℚ
  price : Option ℚ

/-- `Number(globalPricingBreakdown?.clientMultiplier) || 1` times
`Number(globalPricingBreakdown?.deliveryMultiplier) || 1`. -/
def combinedMultiplier (g : Option GlobalPricingBreakdown) : ℚ :=
  jsOrQ (g.bind (·.clientMultiplier)) 1 * jsOrQ (g.bind (·.deliveryMultiplier)) 1

/-- The price ratio: `finalPrice / originalPrice` of the global pricing
breakdown when both are positive, otherwise the combined multiplier. -/
def priceRatio (g : Option GlobalPricingBreakdown) : ℚ :=
  let globalFinalPrice := jsOrQ (g.bind (·.finalPrice)) 0
  let globalOriginalPrice := jsOrQ (g.bind (·.originalPrice)) 0
  if 0 < globalFinalPrice ∧ 0 < globalOriginalPrice then
    globalFinalPrice / globalOriginalPrice
  else combinedMultiplier g

/-- `adjustedPrice > 0 ? adjustedPrice : basePrice * priceRatio` with
`adjustedPrice = product.globalAdjustedPrice || product.adjustedPrice || 0`
and `basePrice = product.totalSale || product.originalSalePrice ||
product.salePrice || product.finalPrice || product.price || 0`. -/
def productTotalCost (g : Option GlobalPricingBreakdown) (p : CalcProduct) : ℚ :=
  let adjustedPrice := firstTruthyQ [p.globalAdjustedPrice, p.adjustedPrice]
  let basePrice :=
    firstTruthyQ [p.totalSale, p.originalSalePrice, p.salePrice, p.finalPrice, p.price]
  if 0 < adjustedPrice then adjustedPrice else basePrice * priceRatio g

/-- `totalPrice || actualTotalPrice || 0` (`totalPrice` with commissions is
preferred). -/
def finalTotalPrice (totalPrice actualTotalPrice : Option ℚ) : ℚ :=
  firstTruthyQ [totalPrice, actualTotalPrice]

/-- `finalTotalPrice / (products.length || 1)`. -/
def perProductFallbackPrice (totalPrice actualTotalPrice : Option ℚ)
    (productCount : ℕ) : ℚ :=
  finalTotalPrice totalPrice actualTotalPrice /
    (if productCount = 0 then 1 else (productCount : ℚ))

/-- One product's final price: the reconstructed cost, replaced by the
per-product fallback when it is `0` and the fallback is positive. -/
def productPriceWithFallback (g : Option GlobalPricingBreakdown) (fallback : ℚ)
    (p : CalcProduct) : ℚ :=
  let productTotal := productTotalCost g p
  if productTotal = 0 ∧ 0 < fallback then fallback else productTotal

/-- The list of `totalPrice` values `getCalculationProducts` assigns to the
quote products, in order. -/
def getCalculationProductsPrices (g : Option GlobalPricingBreakdown)
    (totalPrice actualTotalPrice : Option ℚ) (products : List CalcProduct) : List ℚ :=
  products.map
    (productPriceWithFallback g
      (perProductFallbackPrice totalPrice actualTotalPrice products.length))

/-! Specification-side definitions for C1, following the claim's words
("the first non-zero of the legacy sale-price fields ... is multiplied by
the price ratio ..."), to be compared with the code-side definitions. -/

/-- "the first non-zero of the ... fields": first present non-zero value. -/
def specFirstNonzero (l : List (Option ℚ)) : ℚ :=
  ((l.filterMap id).find? (fun v => decide (v ≠ 0))).getD 0

/-- Claim as written: a multiplier factor "defaulting to 1 when absent or
non-numeric" — a present numeric value (zero included) is used as-is. -/
def specMultiplierOriginal (o : Option ℚ) : ℚ := o.getD 1

/-- Amended reading: the factor defaults to 1 when absent, non-numeric, or
zero (the `|| 1` fallback also fires on a stored `0`). -/
def specMultiplier (o : Option ℚ) : ℚ :=
  if o.getD 0 = 0 then 1 else o.getD 0

/-- The claim's price ratio, parameterised by the multiplier-default
interpretation. -/
def specPriceRatio (mult : Option ℚ → ℚ) (g : Option GlobalPricingBreakdown) : ℚ :=
  let gf := (g.bind (·.finalPrice)).getD 0
  let go := (g.bind (·.originalPrice)).getD 0
  if 0 < gf ∧ 0 < go then gf / go
  else mult (g.bind (·.clientMultiplier)) * mult (g.bind (·.deliveryMultiplier))

/-- The claim's per-product price: a positive adjusted price (first
non-zero of `globalAdjustedPrice`, `adjustedPrice`) is used as-is,
otherwise the first non-zero legacy sale field times the price ratio; a
zero result with a positive calculation total is replaced by the equal
per-product share of that total. -/
def specProductPrice (mult : Option ℚ → ℚ) (g : Option GlobalPricingBreakdown)
    (totalPrice actualTotalPrice : Option ℚ) (count : ℕ) (p : CalcProduct) : ℚ :=
  let adjusted := specFirstNonzero [p.globalAdjustedPrice, p.adjustedPrice]
  let base :=
    specFirstNonzero [p.totalSale, p.originalSalePrice, p.salePrice, p.finalPrice, p.price]
  let derived := if 0 < adjusted then adjusted else base * specPriceRatio mult g
  let total := specFirstNonzero [totalPrice, actualTotalPrice]
  if derived = 0 ∧ 0 < total then total / (count : ℚ) else derived

/-! ## C6: quote PDF totals
(`src/pages/api/quote/[id]/[token]/pdf.ts`, lines 195–251) -/

/-- Price fields of a product as the PDF route reads them (`variant.*`
fields flattened into the record). -/
structure PdfProduct where
  totalSale : Option ℚ
  originalSalePrice : Option ℚ
  finalPrice : Option ℚ
  price : Option ℚ
  quantity : Option ℚ
  variantUnitSalePrice : Option ℚ
  unitPrice : Option ℚ
  variantBasePrice : Option ℚ

/-- Price fields of a service as the PDF route reads them. -/
structure PdfService where
  totalSale : Option ℚ
  calculatedPrice : Option ℚ
  salePrice : Option ℚ
  calculatedCost : Option ℚ

/-- Price fields of a material as the PDF route reads them. -/
structure PdfMaterial where
  totalSale : Option ℚ
  totalCost : Option ℚ

/-- The inputs of the PDF total computation, decoded from the calculation
and the request. -/
structure PdfQuoteInput where
  calcTotalPrice : Option ℚ
  actualTotalPrice : Option ℚ
  clientMultiplier : Option ℚ
  deliveryMultiplier : Option ℚ
  vatRate : Option ℚ
  langParam : Option String
  products : List PdfProduct
  services : List PdfService
  materials : List PdfMaterial

/-- `const lang = url.searchParams.get('lang') || 'sk'`. -/
def pdfLang (i : PdfQuoteInput) : String := jsOrStr i.langParam "sk"

/-- `const isForeign = lang !== 'sk'`. -/
def pdfIsForeign (i : PdfQuoteInput) : Bool := pdfLang i ≠ "sk"

/-- `clientMultiplier * deliveryMultiplier`, each `Number(...) || 1`. -/
def pdfCombinedMultiplier (i : PdfQuoteInput) : ℚ :=
  jsOrQ i.clientMultiplier 1 * jsOrQ i.deliveryMultiplier 1

/-- `Number(calculation.totalPrice) || Number(calculationData.actualTotalPrice) || 0`. -/
def pdfTotalAmount (i : PdfQuoteInput) : ℚ :=
  firstTruthyQ [i.calcTotalPrice, i.actualTotalPrice]

/-- `computeBaseProductTotal` from the PDF route: the four-tier legacy
cascade, each tier scaled by the combined multiplier. -/
def computeBaseProductTotal (comb : ℚ) (p : PdfProduct) : ℚ :=
  let salePrice := firstTruthyQ [p.totalSale, p.originalSalePrice]
  if 0 < salePrice then salePrice * comb
  else
    let productPrice := firstTruthyQ [p.finalPrice, p.price]
    if 0 < productPrice then productPrice * comb
    else
      let qty := jsOrQ p.quantity 1
      let unitPrice := firstTruthyQ [p.variantUnitSalePrice, p.unitPrice]
      if 0 < unitPrice then unitPrice * qty * comb
      else jsOrQ p.variantBasePrice 0 * comb

/-- `Number(s.totalSale) || Number(s.calculatedPrice) || Number(s.salePrice)
|| Number(s.calculatedCost) || 0`. -/
def serviceSalePrice (s : PdfService) : ℚ :=
  firstTruthyQ [s.totalSale, s.calculatedPrice, s.salePrice, s.calculatedCost]

/-- `baseTotal = baseProductTotal + serviceTotal + materialTotal`. -/
def pdfBaseTotal (i : PdfQuoteInput) : ℚ :=
  (i.products.map (computeBaseProductTotal (pdfCombinedMultiplier i))).sum
    + (i.services.map (fun s => serviceSalePrice s * pdfCombinedMultiplier i)).sum
    + (i.materials.map
        (fun m => firstTruthyQ [m.totalSale, m.totalCost] * pdfCombinedMultiplier i)).sum

/-- `markupRatio = (totalAmount > 0 && baseTotal > 0) ? totalAmount / baseTotal : 1`. -/
def pdfMarkupRatio (i : PdfQuoteInput) : ℚ :=
  if 0 < pdfTotalAmount i ∧ 0 < pdfBaseTotal i then pdfTotalAmount i / pdfBaseTotal i
  else 1

/-- `computeProductTotal`: base price scaled by the markup ratio. -/
def computeProductTotal (i : PdfQuoteInput) (p : PdfProduct) : ℚ :=
  computeBaseProductTotal (pdfCombinedMultiplier i) p * pdfMarkupRatio i

/-- `computeServiceTotal`: service sale price times combined multiplier,
scaled by the markup ratio. -/
def computeServiceTotal (i : PdfQuoteInput) (s : PdfService) : ℚ :=
  serviceSalePrice s * pdfCombinedMultiplier i * pdfMarkupRatio i

/-- `globalTotal = totalAmount > 0 ? totalAmount : productTotal + serviceTotalFinal`. -/
def pdfGlobalTotal (i : PdfQuoteInput) : ℚ :=
  if 0 < pdfTotalAmount i then pdfTotalAmount i
  else (i.products.map (computeProductTotal i)).sum
    + (i.services.map (computeServiceTotal i)).sum

/-- `const vatRate = invoicing.vatRate || 23`. -/
def pdfVatRate (i : PdfQuoteInput) : ℚ := jsOrQ i.vatRate 23

/-- `const effectiveVatRate = isForeign ? 0 : vatRate`. -/
def pdfEffectiveVatRate (i : PdfQuoteInput) : ℚ :=
  if pdfIsForeign i then 0 else pdfVatRate i

/-- `const vatAmount = globalTotal * (effectiveVatRate / 100)`. -/
def pdfVatAmount (i : PdfQuoteInput) : ℚ :=
  pdfGlobalTotal i * (pdfEffectiveVatRate i / 100)

/-- `const totalWithVat = globalTotal + vatAmount` (the amount payable). -/
def pdfTotalWithVat (i : PdfQuoteInput) : ℚ :=
  pdfGlobalTotal i + pdfVatAmount i

/-- Claim as written: the effective VAT rate for 'sk' is "the
organization's VAT rate defaulting to 23" — a stored numeric value (zero
included) is used as-is, the default fires only when absent. -/
def specEffectiveVatRateOriginal (i : PdfQuoteInput) : ℚ :=
  if pdfLang i ≠ "sk" then 0 else i.vatRate.getD 23

/-- Amended reading: the VAT rate defaults to 23 when absent, non-numeric,
or zero (`|| 23` also fires on a stored `0`). -/
def specEffectiveVatRate (i : PdfQuoteInput) : ℚ :=
  if pdfLang i ≠ "sk" then 0
  else if i.vatRate.getD 0 = 0 then 23 else i.vatRate.getD 0

/-- The claim's grand total: the stored total when positive, otherwise the
sum of reconstructed product and service totals (spec-side formulation). -/
def specGrandTotal (i : PdfQuoteInput) : ℚ :=
  let stored := specFirstNonzero [i.calcTotalPrice, i.actualTotalPrice]
  if 0 < stored then stored
  else (i.products.map (computeProductTotal i)).sum
    + (i.services.map (computeServiceTotal i)).sum

/-- The claim's markup ratio: `totalAmount / baseTotal`, "taken as 1 when
either quantity is non-positive". -/
def specMarkupRatio (i : PdfQuoteInput) : ℚ :=
  if pdfTotalAmount i ≤ 0 ∨ pdfBaseTotal i ≤ 0 then 1
  else pdfTotalAmount i / pdfBaseTotal i

/-! ## C2: `getCalculationByShareToken` attribute reconstruction
(`src/unnamed/part_005`, lines 1742–1783)

`JSON.parse` is an external builtin and is a parameter (`jparse`) of the
embedded loop; `none` models a parse exception. -/

/-- `s.startsWith(p)` (over the character lists underlying the strings). -/
def strStartsWith (s p : String) : Bool := p.data.isPrefixOf s.data

/-- `s.slice`-style character drop; models
`name.replace('calculationData.', '')` on a name that starts with the
16-character prefix `calculationData.`. -/
def strDrop (s : String) (n : ℕ) : String := ⟨s.data.drop n⟩

/-- `subKey.split('.')` on character lists: split at every dot, keeping
empty segments, never returning an empty list. -/
def splitDotChars : List Char → List (List Char)
  | [] => [[]]
  | c :: rest =>
    if c = '.' then [] :: splitDotChars rest
    else
      match splitDotChars rest with
      | [] => [[c]]
      | g :: gs => (c :: g) :: gs

/-- `subKey.split('.')`. -/
def splitDot (s : String) : List String :=
  (splitDotChars s.data).map (fun cs => ⟨cs⟩)

/-- `s.trim()` (whitespace stripped from both ends, over the character
list underlying the string). -/
def strTrim (s : String) : String :=
  ⟨((s.data.dropWhile Char.isWhitespace).reverse.dropWhile Char.isWhitespace).reverse⟩

/-- One attribute row as the share-token loader reads it
(`SELECT attribute_name, string_value, number_value, json_value`). -/
structure ShareAttrRow where
  attribute_name : String
  string_value : Option String
  number_value : Option ℚ
  json_value : Option String

/-- `let value = row.json_value || row.string_value || row.number_value`. -/
def shareRowRawValue (r : ShareAttrRow) : Option JVal :=
  jsOrChain [r.json_value.map .str, r.string_value.map .str, r.number_value.map .num]

/-- String values beginning with `[` or `{` are JSON-parsed, and kept as
strings when parsing fails; every other value passes through. -/
def prepValue (jparse : String → Option JVal) (v : Option JVal) : Option JVal :=
  match v with
  | some (.str s) =>
    if strStartsWith s "[" || strStartsWith s "\x7b" then
      match jparse s with
      | some j => some j
      | none => some (.str s)
    else some (.str s)
  | w => w

/-- JavaScript `typeof v === 'object'`: objects, arrays and `null`. -/
def JVal.typeofObject : JVal → Bool
  | .obj _ => true
  | .arr _ => true
  | .null => true
  | _ => false

/-- `Object.assign(target, source)` for the sources the guarded call site
can receive: object fields are copied key by key, array elements under
their index keys, `null` is ignored.  (Primitive sources cannot reach the
call, which is guarded by `typeof value === 'object'`.) -/
def assignObj (tgt : List (String × JVal)) (src : JVal) : List (String × JVal) :=
  match src with
  | .obj fs => fs.foldl (fun a kv => setKey a kv.1 kv.2) tgt
  | .arr es => (es.enum.map (fun p => (toString p.1, p.2))).foldl
      (fun a kv => setKey a kv.1 kv.2) tgt
  | _ => tgt

/-- The nested-path write of the reconstruction loop: walk the dot path,
replacing a missing or falsy intermediate with a fresh `{}` and descending
into object intermediates; a truthy non-object intermediate makes the
strict-mode code throw `TypeError` (property assignment on a primitive),
modelled as `none`.  (An array intermediate would accept the property in
JavaScript; it is also modelled as failure, and the theorems below only
speak about runs in which the walk succeeds.) -/
def setPath : List (String × JVal) → List String → JVal → Option (List (String × JVal))
  | l, [], _ => some l
  | l, [k], v => some (setKey l k v)
  | l, k :: k2 :: rest, v =>
    match l.lookup k with
    | some w =>
      if w.truthy then
        match w with
        | .obj fs => (setPath fs (k2 :: rest) v).map (fun fs' => setKey l k (.obj fs'))
        | _ => none
      else (setPath [] (k2 :: rest) v).map (fun fs' => setKey l k (.obj fs'))
    | none => (setPath [] (k2 :: rest) v).map (fun fs' => setKey l k (.obj fs'))

/-- Reading a dot path back out of the reconstructed object. -/
def getPath : List (String × JVal) → List String → Option JVal
  | _, [] => none
  | l, [k] => l.lookup k
  | l, k :: k2 :: rest =>
    match l.lookup k with
    | some (.obj fs) => getPath fs (k2 :: rest)
    | _ => none

/-- One iteration of the reconstruction loop over `(data,
calculationDataFromEav)`: flattened `calculationData.*` attributes are
placed at their nested path, a `calculationData` attribute with
`typeof value === 'object'` is `Object.assign`-merged, everything else
becomes a top-level field of `data`.  `none` models a thrown `TypeError`
(the function's outer catch then returns `null`). -/
def processShareAttrRow (jparse : String → Option JVal)
    (st : List (String × JVal) × List (String × JVal)) (r : ShareAttrRow) :
    Option (List (String × JVal) × List (String × JVal)) :=
  let value := (prepValue jparse (shareRowRawValue r)).getD .null
  if strStartsWith r.attribute_name "calculationData." then
    let subKey := strDrop r.attribute_name 16
    (setPath st.2 (splitDot subKey) value).map (fun cd => (st.1, cd))
  else if r.attribute_name = "calculationData" then
    some (st.1, if value.typeofObject then assignObj st.2 value else st.2)
  else
    some (setKey st.1 r.attribute_name value, st.2)

/-- The whole reconstruction: fold the attribute rows over the initial
state `({ id: calculationId }, {})`, propagating exceptions. -/
def reconstructCalculation (jparse : String → Option JVal) (calculationId : String)
    (rows : List ShareAttrRow) :
    Option (List (String × JVal) × List (String × JVal)) :=
  rows.foldlM (processShareAttrRow jparse) ([("id", .str calculationId)], [])

/-! ## C3 and C7: `updateQuoteResponse` (`src/unnamed/part_005`,
lines 1848–2056) and the respond-waiting route (`src/unnamed/part_001`)

The SQL tables touched by these handlers are embedded as record lists.
`LIMIT 1` without `ORDER BY` is modelled as the first matching row in list
order.  The outgoing webhook `fetch` is an external effect: its outcome is
the `webhookResult` parameter, and the request the code sends is recorded
in the returned call list. -/

/-- A `calculation_shares` row. -/
structure CalculationShare where
  id : String
  calculation_id : String
  token : String
  expires_at : Option Int
  status : String
  client_response : Option String
  client_comment : Option String
  responded_at : Option Int
  organization_id : Option String
  created_at : Int

/-- An `entities` row. -/
structure EavEntity where
  id : String
  table_id : String

/-- An `attributes` row (the columns `updateQuoteResponse` touches). -/
structure EavAttr where
  id : String
  entity_id : String
  attribute_name : String
  string_value : Option String

/-- A `calculation_activities` row (the columns the handlers insert). -/
structure ActivityRow where
  id : String
  calculation_id : String
  action : String
  description : String
  organization_id : Option String
  created_at : Int

/-- A recorded outgoing webhook request. -/
structure WebhookCall where
  path : String
  calculationId : String
  token : String
  action : String
  comment : Option String

/-- The database state the two handlers read and write. -/
structure PortalDB where
  shares : List CalculationShare
  entities : List EavEntity
  attributes : List EavAttr
  activities : List ActivityRow

/-- `EAV_TABLES.calculations`. -/
def EAV_TABLES_calculations : String := "fc3eb1c9-224a-4da7-919b-fab762bdc6c6"

/-- The `approvalStatusMap` lookup followed by `|| ''`:
`question_received` (and any unknown action) maps to the empty string. -/
def approvalStatusMap (action : String) : String :=
  if action = "approved" then "CLIENT_APPROVED"
  else if action = "rejected" then "CLIENT_REJECTED"
  else if action = "requested_changes" then "CLIENT_REQUESTED_CHANGES"
  else ""

/-- `if (expiresAt && expiresAt < Math.floor(Date.now() / 1000))`: the
expiry test fires only for a non-null, non-zero `expires_at` in the past. -/
def shareExpired (s : CalculationShare) (now : Int) : Bool :=
  match s.expires_at with
  | some e => !(e == 0) && decide (e < now)
  | none => false

/-- `comment || null`: an absent or empty comment is stored as `NULL`. -/
def jsCommentOrNull (comment : Option String) : Option String :=
  match comment with
  | some c => if c = "" then none else some c
  | none => none

/-- The entity lookup `SELECT e.id FROM entities e JOIN attributes a ... WHERE
e.table_id = ? AND a.attribute_name = 'id' AND a.string_value = ? LIMIT 1`. -/
def findCalcEntity (db : PortalDB) (tableId calculationId : String) : Option EavEntity :=
  db.entities.find? (fun e =>
    e.table_id == tableId &&
      db.attributes.any (fun a =>
        a.entity_id == e.id && a.attribute_name == "id" &&
          a.string_value == some calculationId))

/-- Update-or-insert of the `approvalStatus` EAV attribute of an entity. -/
def updateApprovalStatus (db : PortalDB) (entityId newStatus attrId : String) : PortalDB :=
  if db.attributes.any
      (fun a => a.entity_id == entityId && a.attribute_name == "approvalStatus") then
    { db with
      attributes := db.attributes.map (fun a =>
        if a.entity_id == entityId && a.attribute_name == "approvalStatus" then
          { a with string_value := some newStatus }
        else a) }
  else
    { db with
      attributes := db.attributes ++
        [{ id := attrId, entity_id := entityId, attribute_name := "approvalStatus",
           string_value := some newStatus }] }

/-- The activity row `updateQuoteResponse` inserts. -/
def quoteResponseActivity (db : PortalDB) (calculationId tok action : String)
    (comment : Option String) (activityId : String) (now : Int) : ActivityRow :=
  let organizationId :=
    (db.shares.find? (fun s => s.calculation_id == calculationId && s.token == tok)).bind
      (·.organization_id)
  let commentText := jsOrStr comment "(bez textu)"
  if action = "approved" then
    ⟨activityId, calculationId, "client_approved", "Klient schválil ponuku",
      organizationId, now⟩
  else if action = "rejected" then
    ⟨activityId, calculationId, "client_rejected", "Klient zamietol ponuku",
      organizationId, now⟩
  else if action = "requested_changes" then
    ⟨activityId, calculationId, "client_requested_changes",
      "Klient požiadal o zmeny: \"" ++ commentText ++ "\"", organizationId, now⟩
  else
    ⟨activityId, calculationId, "question_received",
      "Klient položil otázku: \"" ++ commentText ++ "\"", organizationId, now⟩

/-- The per-row effect of the share `UPDATE ... WHERE calculation_id = ?
AND token = ?`: every matching row gets the response recorded and its
status set to `responded` exactly for an approval. -/
def respondShareUpdate (calculationId tok action : String) (comment : Option String)
    (now : Int) (s : CalculationShare) : CalculationShare :=
  if s.calculation_id == calculationId && s.token == tok then
    { s with
      status := if action = "approved" then "responded" else "active",
      client_response := some action,
      client_comment := jsCommentOrNull comment,
      responded_at := some now }
  else s

/-- The database state after a successful (non-early-return) run of
`updateQuoteResponse`. -/
def updateQuoteResponseDb (db : PortalDB) (calculationId tok action : String)
    (comment : Option String) (now : Int) (attrId activityId : String) : PortalDB :=
  let newApprovalStatus := approvalStatusMap action
  let db1 := { db with
    shares := db.shares.map (respondShareUpdate calculationId tok action comment now) }
  let db2 :=
    if newApprovalStatus ≠ "" then
      match findCalcEntity db1 EAV_TABLES_calculations calculationId with
      | some e => updateApprovalStatus db1 e.id newApprovalStatus attrId
      | none => db1
    else db1
  { db2 with
    activities := db2.activities ++
      [quoteResponseActivity db2 calculationId tok action comment activityId now] }

/-- `updateQuoteResponse`: validates the share, records the client
response, updates the `approvalStatus` attribute (unless the action is a
question), logs an activity, and sends the webhook.  The webhook outcome
(`webhookResult`, an HTTP status and body, or a thrown error) is received
inside its own try/catch and never influences anything. -/
def updateQuoteResponse (db : PortalDB) (calculationId tok action : String)
    (comment : Option String) (now : Int) (attrId activityId : String)
    (webhookResult : Except Unit (Nat × String)) :
    Bool × PortalDB × List WebhookCall :=
  match db.shares.find? (fun s => s.calculation_id == calculationId && s.token == tok) with
  | none => (false, db, [])
  | some share =>
    if shareExpired share now then (false, db, [])
    else
      (true, updateQuoteResponseDb db calculationId tok action comment now attrId activityId,
        [⟨"/api/webhooks/quote-response", calculationId, tok, action,
          jsCommentOrNull comment⟩])

/-- A one-share database whose share has `expires_at = 0` (the Unix epoch,
in the past), used to probe the expiry check. -/
def dbC3 : PortalDB :=
  ⟨[⟨"s1", "c1", "t1", some 0, "active", none, none, none, none, 0⟩], [], [], []⟩

/-- A database with one never-expiring share and the matching calculation
entity, used to instantiate the C3 success path. -/
def dbC3b : PortalDB :=
  ⟨[⟨"s2", "c2", "t2", none, "active", none, none, none, none, 0⟩],
    [⟨"e1", EAV_TABLES_calculations⟩],
    [⟨"a0", "e1", "id", some "c2"⟩], []⟩

/-- A database with one active share, used to instantiate the C7 paths. -/
def dbC7 : PortalDB :=
  ⟨[⟨"s7", "c7", "t7", none, "active", none, none, none, none, 5⟩], [], [], []⟩

/-- The result of an Astro route: a plain response or a redirect. -/
inductive RouteResult where
  | response (status : Nat) (body : String)
  | redirect (location : String) (status : Nat)

/-- `ORDER BY created_at DESC LIMIT 1` over the active shares of a
calculation: the row with the largest `created_at` (first such row in list
order on ties). -/
def pickLatestActiveShare (db : PortalDB) (calculationId : String) :
    Option CalculationShare :=
  (db.shares.filter
      (fun s => s.calculation_id == calculationId && s.status == "active")).foldl
    (fun best s =>
      match best with
      | none => some s
      | some b => if b.created_at < s.created_at then some s else some b)
    none

/-- The respond-waiting route (`POST /api/quote/[id]/respond-waiting`):
records a client question on the latest active share and redirects to the
dashboard.  `session` carries the logged-in customer's name; the webhook
outcome is again an ignored parameter, the sent request is recorded. -/
def respondWaiting (db : PortalDB) (calculationId : Option String)
    (session : Option String) (comment : Option String) (now : Int)
    (activityId : String) (webhookResult : Except Unit (Nat × String)) :
    RouteResult × PortalDB × List WebhookCall :=
  match calculationId with
  | none => (.response 400 "Missing calculation ID", db, [])
  | some id =>
    match session with
    | none => (.response 401 "Unauthorized", db, [])
    | some _ =>
      let commentStr := comment.getD ""
      if commentStr = "" ∨ strTrim commentStr = "" then
        (.redirect "/dashboard?error=empty_response" 303, db, [])
      else
        match pickLatestActiveShare db id with
        | none => (.redirect "/dashboard?error=no_share" 303, db, [])
        | some share =>
          let db1 : PortalDB := { db with
            shares := db.shares.map (fun s =>
              if s.id == share.id then
                { s with
                  client_response := some "question_received",
                  client_comment := some (strTrim commentStr),
                  responded_at := some now }
              else s) }
          let db2 : PortalDB := { db1 with
            activities := db1.activities ++
              [⟨activityId, id, "question_received",
                "Klient položil otázku: \"" ++ strTrim commentStr ++ "\"",
                share.organization_id, now⟩] }
          (.redirect "/dashboard?success=response_sent" 303, db2,
            [⟨"/api/webhooks/quote-response", id, share.token, "question_received",
              some (strTrim commentStr)⟩])

/-! ## C4: session tokens (`src/unnamed/part_005`, lines 194–218)

`Buffer` base64 and `JSON.stringify`/`JSON.parse` are platform builtins.
The embedding keeps them abstract: `enc` is the composite
`base64(JSON.stringify(·))` and `dec` the composite
`JSON.parse(base64decode(·))` (with `none` for a parse exception); the
round trip `dec (enc v) = some v` of the builtins is a hypothesis of the
theorems.  The shape of the serialized session, the 24-hour expiry
computation and the expiry comparison are the repository's own code and
are embedded concretely.  Times are in milliseconds (`Date.now()`). -/

/-- The payload `createSessionToken` receives
(`Omit<ClientSession, 'expiresAt'>`). -/
structure SessionPayload where
  customerId : String
  customerName : String
  email : String
  organizationId : String

/-- The JSON object serialized into the cookie: the payload extended with
`expiresAt`. -/
def sessionJVal (s : SessionPayload) (expiresAt : ℚ) : JVal :=
  .obj [("customerId", .str s.customerId), ("customerName", .str s.customerName),
    ("email", .str s.email), ("organizationId", .str s.organizationId),
    ("expiresAt", .num expiresAt)]

/-- `createSessionToken`: the encoding of the session extended with
`expiresAt: Date.now() + 24 * 60 * 60 * 1000`. -/
def createSessionToken (enc : JVal → String) (s : SessionPayload) (now : ℚ) : String :=
  enc (sessionJVal s (now + 24 * 60 * 60 * 1000))

/-- JavaScript `ToNumber` on a string, as used by `<` when one operand is a
string: the empty (or all-whitespace) string is `0`, a string of digits is
its decimal value, anything else is modelled as `NaN` (`none`). -/
def strToNumber (s : String) : Option ℚ :=
  if s.trim = "" then some 0 else (s.trim.toNat?).map (fun n => (n : ℚ))

/-- JavaScript `ToNumber` of a value (`none` is `NaN`; objects and arrays
are modelled as `NaN`, which is the common case via `toPrimitive`). -/
def JVal.toNumber : JVal → Option ℚ
  | .num q => some q
  | .null => some 0
  | .bool b => some (if b then 1 else 0)
  | .str s => strToNumber s
  | .arr _ => none
  | .obj _ => none

/-- JavaScript `v < n` for a possibly-`undefined` left operand and a number:
`false` whenever the left side converts to `NaN` (`undefined` included). -/
def jsLtNum (v : Option JVal) (n : ℚ) : Bool :=
  match v with
  | none => false
  | some w =>
    match w.toNumber with
    | some q => decide (q < n)
    | none => false

/-- JavaScript property read `v.k` (primitives have none of the session
fields; reading a property of `null` throws and is handled at the caller). -/
def objGet (v : JVal) (k : String) : Option JVal :=
  match v with
  | .obj fs => fs.lookup k
  | _ => none

/-- `parseSessionToken`: decode, then drop the session when
`session.expiresAt < Date.now()`; any exception (undecodable token, JSON
`null` making the property read throw) yields `null`. -/
def parseSessionToken (dec : String → Option JVal) (tok : String) (now : ℚ) :
    Option JVal :=
  match dec tok with
  | none => none
  | some .null => none
  | some v => if jsLtNum (objGet v "expiresAt") now then none else some v

/-- Concrete session payload used to instantiate the C4 statements. -/
def sessionC4 : SessionPayload :=
  ⟨"cust-1", "Alice Example", "alice@example.com", "org-1"⟩

/-- A concrete encoder standing for `base64 ∘ JSON.stringify` at the single
point the C4 counterexample needs. -/
def encC4 : JVal → String := fun _ => "tok"

/-- The matching concrete decoder: round-trips `encC4` on the C4 session. -/
def decC4 : String → Option JVal := fun t =>
  if t = "tok" then some (sessionJVal sessionC4 86400000) else none

/-- A decoder exposing the missing shape validation: some token decodes to
the valid-JSON value `{}`, which is not a session. -/
def decC4empty : String → Option JVal := fun t =>
  if t = "e30=" then some (.obj []) else none

/-! ## C5: the login route (`src/unnamed/part_004`) -/

/-- The customer record `findCustomerByEmail` returns (the fields the login
route uses). -/
structure PortalCustomer where
  id : String
  entityId : String
  name : String
  businessName : Option String
  organizationId : String

/-- The session-cookie payload `createSessionCookie` receives. -/
structure SessionCookiePayload where
  customerId : String
  customerEntityId : String
  customerName : String
  email : String
  organizationId : String

/-- The observable pieces of the login response: HTTP status, the
`Set-Cookie` session payload when present, and the success body. -/
structure LoginResponse where
  status : Nat
  setCookie : Option SessionCookiePayload
  success : Bool
  customerName : Option String
  customerBusinessName : Option (Option String)

/-- `email.trim().toLowerCase()`. -/
def jsNormalizeEmail (s : String) : String := s.trim.toLower

/-- The login route `POST /api/auth/login`: 503 when the database is not
configured, 500 when `request.json()` throws (`body = none`), 400 when the
`email` field is missing, not a string, or empty (falsy), 401 when no
customer matches the normalised email, 200 with the session cookie
otherwise.  `findCustomerByEmail` is the DB lookup, abstracted as a
function. -/
def loginPOST (dbConfigured : Bool)
    (findCustomerByEmail : String → Option PortalCustomer)
    (body : Option (List (String × JVal))) : LoginResponse :=
  if !dbConfigured then ⟨503, none, false, none, none⟩
  else
    match body with
    | none => ⟨500, none, false, none, none⟩
    | some b =>
      match b.lookup "email" with
      | some (.str email) =>
        if email = "" then ⟨400, none, false, none, none⟩
        else
          match findCustomerByEmail (jsNormalizeEmail email) with
          | none => ⟨401, none, false, none, none⟩
          | some customer =>
            ⟨200,
              some ⟨customer.id, customer.entityId, customer.name,
                jsNormalizeEmail email, customer.organizationId⟩,
              true, some customer.name, some customer.businessName⟩
      | _ => ⟨400, none, false, none, none⟩

/-! ## C8: the translation and logo caches
(`src/unnamed/part_005`, lines 6–80; `pdf.ts`, lines 8–23)

Both caches are module-level state; the embedding passes the cache in and
out.  The translation HTTP call is the `apiResult` parameter: `none` for a
missing API key, a non-OK response, or a thrown fetch error (all of which
return the original text without caching), `some t` for an OK response with
extracted text `t`. -/

/-- The `langMap` of `translateText`/`translateBatch`. -/
def TRANSLATE_LANG_MAP : List (String × String) :=
  [("de-AT", "de"), ("sk", "sk"), ("en", "en")]

/-- `translateText`: returns the (possibly updated) module-level
`translationCache` alongside the result. -/
def translateText (cache : List (String × String))
    (text targetLang sourceLang : String) (apiResult : Option String) :
    String × List (String × String) :=
  if text = "" ∨ targetLang = sourceLang ∨ targetLang = "sk" then (text, cache)
  else
    let googleTargetLang := jsOrStr (TRANSLATE_LANG_MAP.lookup targetLang) targetLang
    let cacheKey := text ++ ":" ++ sourceLang ++ ":" ++ googleTargetLang
    match cache.lookup cacheKey with
    | some cached => (cached, cache)
    | none =>
      match apiResult with
      | none => (text, cache)
      | some translatedText => (translatedText, setKey cache cacheKey translatedText)

/-- `getLogoBase64`: returns the (possibly updated) module-level
`logoBase64Cache` alongside the result; `readResult` is the base64 of the
logo file, `none` when reading throws. -/
def getLogoBase64 (logoBase64Cache : Option String) (readResult : Option String) :
    String × Option String :=
  if (match logoBase64Cache with | some c => !c.isEmpty | none => false) then
    (logoBase64Cache.getD "", logoBase64Cache)
  else
    match readResult with
    | some b64 =>
      let v := "data:image/jpeg;base64," ++ b64
      (v, some v)
    | none => ("", logoBase64Cache)

/-! ## Basic lemmas -/

/-- Looking up the key just assigned gives the assigned value. -/
lemma lookup_setKey_self {α : Type} (l : List (String × α)) (k : String) (v : α) :
    (setKey l k v).lookup k = some v := by
  induction l with
  | nil => simp [setKey, List.lookup]
  | cons hd tl ih =>
    obtain ⟨k', v'⟩ := hd
    by_cases h : k' = k
    · subst h
      simp [setKey, List.lookup]
    · simp only [setKey, h, if_false, List.lookup, ih]
      rw [show (k == k') = false from beq_eq_false_iff_ne.mpr (Ne.symm h)]

/-- Assignment does not change other keys. -/
lemma lookup_setKey_ne {α : Type} (l : List (String × α)) (k k' : String) (v : α)
    (h : k' ≠ k) : (setKey l k v).lookup k' = l.lookup k' := by
  induction l with
  | nil =>
    simp only [setKey, List.lookup]
    rw [show (k' == k) = false from beq_eq_false_iff_ne.mpr h]
  | cons hd tl ih =>
    obtain ⟨k₀, v₀⟩ := hd
    by_cases h0 : k₀ = k
    · subst h0
      simp only [setKey, if_pos rfl, List.lookup, ih]
      rw [show (k' == k₀) = false from beq_eq_false_iff_ne.mpr h]
    · simp only [setKey, h0, if_false, List.lookup, ih]

/-- A `||`-chain returns the first truthy operand. -/
lemma jsOrChain_find (l : List (Option JVal)) (v : JVal)
    (h : (l.filterMap id).find? JVal.truthy = some v) : jsOrChain l = some v := by
  induction l with
  | nil => simp [List.filterMap] at h
  | cons o t ih =>
    cases o with
    | none =>
      rw [show (none :: t : List (Option JVal)).filterMap id = t.filterMap id by simp] at h
      cases t with
      | nil => simp [List.filterMap] at h
      | cons o2 t2 => simpa [jsOrChain, jsOrV] using ih h
    | some w =>
      rw [show (some w :: t).filterMap id = w :: t.filterMap id by simp] at h
      by_cases hw : w.truthy
      · rw [List.find?_cons_of_pos _ hw] at h
        cases h
        cases t with
        | nil => rfl
        | cons o2 t2 => simp [jsOrChain, jsOrV, hw]
      · rw [List.find?_cons_of_neg _ hw] at h
        cases t with
        | nil => simp [List.filterMap] at h
        | cons o2 t2 => simpa [jsOrChain, jsOrV, hw] using ih h

/-- The value of a `||`-chain is one of its operands. -/
lemma jsOrChain_mem (l : List (Option JVal)) (v : JVal)
    (h : jsOrChain l = some v) : some v ∈ l := by
  induction l with
  | nil => simp [jsOrChain] at h
  | cons o t ih =>
    cases t with
    | nil =>
      rw [show jsOrChain [o] = o from rfl] at h
      simp [h]
    | cons o2 t2 =>
      rw [show jsOrChain (o :: o2 :: t2) = jsOrV o (jsOrChain (o2 :: t2)) from rfl] at h
      cases o with
      | none => exact List.mem_cons_of_mem _ (ih h)
      | some w =>
        by_cases hw : w.truthy
        · simp [jsOrV, hw] at h
          simp [h]
        · simp [jsOrV, hw] at h
          exact List.mem_cons_of_mem _ (ih h)

/-- A falsy `||`-chain value comes from the last operand. -/
lemma jsOrChain_last (l : List (Option JVal)) (v : JVal)
    (h : jsOrChain l = some v) : v.truthy = true ∨ l.getLast? = some (some v) := by
  induction l with
  | nil => simp [jsOrChain] at h
  | cons o t ih =>
    cases t with
    | nil =>
      rw [show jsOrChain [o] = o from rfl] at h
      simp [h]
    | cons o2 t2 =>
      rw [show jsOrChain (o :: o2 :: t2) = jsOrV o (jsOrChain (o2 :: t2)) from rfl] at h
      have hlast : (o :: o2 :: t2).getLast? = (o2 :: t2).getLast? := by
        simp [List.getLast?_cons_cons]
      cases o with
      | none => rw [hlast]; exact ih h
      | some w =>
        by_cases hw : w.truthy
        · simp [jsOrV, hw] at h
          subst h
          exact Or.inl hw
        · simp [jsOrV, hw] at h
          rw [hlast]
          exact ih h

/-- The code's `x₁ || x₂ || ... || 0` equals the claim's "first non-zero of
the fields". -/
lemma firstTruthyQ_eq_spec (l : List (Option ℚ)) : firstTruthyQ l = specFirstNonzero l := by
  induction l with
  | nil => simp [firstTruthyQ, specFirstNonzero, List.filterMap]
  | cons o t ih =>
    cases o with
    | none =>
      rw [show firstTruthyQ (none :: t) = firstTruthyQ t from rfl, ih]
      simp [specFirstNonzero]
    | some v =>
      by_cases hv : v = 0
      · subst hv
        rw [show firstTruthyQ (some 0 :: t) = firstTruthyQ t by simp [firstTruthyQ], ih]
        simp [specFirstNonzero, List.filterMap_cons]
      · rw [show firstTruthyQ (some v :: t) = v by simp [firstTruthyQ, hv]]
        simp [specFirstNonzero, List.filterMap_cons, List.find?, hv]

/-- `Number(x) || 0` is just the stored value (or 0 when absent). -/
lemma jsOrQ_zero (o : Option ℚ) : jsOrQ o 0 = o.getD 0 := by
  cases o with
  | none => rfl
  | some v =>
    by_cases hv : v = 0
    · simp [jsOrQ, hv]
    · simp [jsOrQ, hv]

/-- `Number(x) || 1` equals the amended multiplier reading. -/
lemma jsOrQ_one_eq_specMultiplier (o : Option ℚ) : jsOrQ o 1 = specMultiplier o := by
  cases o with
  | none => rfl
  | some v =>
    by_cases hv : v = 0
    · simp [jsOrQ, specMultiplier, hv]
    · simp [jsOrQ, specMultiplier, hv]

/-! ## C9 -/

/-- C9: for every order service, `getRealStatus` derives the reported
status from the service's tasks: with at least one task, the status is
`completed` exactly when every task is completed, `in_progress` when some
task is in progress or when some but not all tasks are completed, and
`pending` in every other case; with no tasks the stored status is kept. -/
theorem C9_getRealStatus_from_tasks (ts : List String) (st : String) :
    (ts = [] → getRealStatus ts st = st) ∧
    (ts ≠ [] → (getRealStatus ts st = "completed" ↔ ∀ s ∈ ts, s = "completed")) ∧
    (ts ≠ [] →
      ((∃ s ∈ ts, s = "in_progress") ∨
        ((∃ s ∈ ts, s = "completed") ∧ ¬∀ s ∈ ts, s = "completed")) →
      getRealStatus ts st = "in_progress") ∧
    (ts ≠ [] → (∀ s ∈ ts, s ≠ "in_progress" ∧ s ≠ "completed") →
      getRealStatus ts st = "pending") := by
  by_cases hts : ts = []
  · subst hts
    exact ⟨fun _ => by simp [getRealStatus], fun h => (h rfl).elim,
      fun h => (h rfl).elim, fun h => (h rfl).elim⟩
  · have hempty : ts.isEmpty = false := by
      cases ts with
      | nil => exact absurd rfl hts
      | cons a l => rfl
    have hunfold : getRealStatus ts st =
        (if ts.all (fun s => s == "completed") then "completed"
         else if ts.any (fun s => s == "in_progress") then "in_progress"
         else if ts.any (fun s => s == "completed") then "in_progress"
         else "pending") := by
      simp [getRealStatus, hempty]
    refine ⟨fun h => absurd h hts, fun _ => ?_, fun _ hcond => ?_, fun _ hother => ?_⟩
    · rw [hunfold]
      by_cases hall : ts.all (fun s => s == "completed") = true
      · rw [if_pos hall]
        simp only [List.all_eq_true, beq_iff_eq] at hall
        exact ⟨fun _ => hall, fun _ => rfl⟩
      · rw [if_neg hall]
        have hnall : ¬∀ s ∈ ts, s = "completed" := by
          simpa [List.all_eq_true, beq_iff_eq] using hall
        constructor
        · intro hc
          exfalso
          by_cases h1 : ts.any (fun s => s == "in_progress") = true
          · rw [if_pos h1] at hc; exact absurd hc (by decide)
          · rw [if_neg h1] at hc
            by_cases h2 : ts.any (fun s => s == "completed") = true
            · rw [if_pos h2] at hc; exact absurd hc (by decide)
            · rw [if_neg h2] at hc; exact absurd hc (by decide)
        · intro hc; exact absurd hc hnall
    · rw [hunfold]
      have hall : ¬ts.all (fun s => s == "completed") = true := by
        simp only [List.all_eq_true, beq_iff_eq]
        rcases hcond with ⟨s, hs, hip⟩ | ⟨_, hnall⟩
        · intro hallp
          have := hallp s hs
          rw [hip] at this
          exact absurd this (by decide)
        · exact hnall
      rw [if_neg hall]
      by_cases h1 : ts.any (fun s => s == "in_progress") = true
      · rw [if_pos h1]
      · rw [if_neg h1]
        have h2 : ts.any (fun s => s == "completed") = true := by
          rcases hcond with ⟨s, hs, hip⟩ | ⟨⟨s, hs, hcp⟩, _⟩
          · exact absurd (List.any_eq_true.mpr ⟨s, hs, by rw [hip]; rfl⟩) h1
          · exact List.any_eq_true.mpr ⟨s, hs, by rw [hcp]; rfl⟩
        rw [if_pos h2]
    · rw [hunfold]
      obtain ⟨a, l, rfl⟩ : ∃ a l, ts = a :: l := by
        cases ts with
        | nil => exact absurd rfl hts
        | cons a l => exact ⟨a, l, rfl⟩
      have hall : ¬(a :: l).all (fun s => s == "completed") = true := by
        simp only [List.all_eq_true, beq_iff_eq]
        intro hallp
        exact (hother a (List.mem_cons_self a l)).2 (hallp a (List.mem_cons_self a l))
      have h1 : ¬(a :: l).any (fun s => s == "in_progress") = true := by
        simp only [List.any_eq_true, beq_iff_eq]
        rintro ⟨s, hs, hip⟩
        exact (hother s hs).1 hip
      have h2 : ¬(a :: l).any (fun s => s == "completed") = true := by
        simp only [List.any_eq_true, beq_iff_eq]
        rintro ⟨s, hs, hcp⟩
        exact (hother s hs).2 hcp
      rw [if_neg hall, if_neg h1, if_neg h2]

/-- Witness for C9 at concrete task lists. -/
theorem C9_getRealStatus_witness :
    getRealStatus ["completed", "in_progress"] "stored" = "in_progress" ∧
    getRealStatus [] "stored" = "stored" :=
  ⟨(C9_getRealStatus_from_tasks ["completed", "in_progress"] "stored").2.2.1
      (by decide) (Or.inl ⟨"in_progress", by decide, rfl⟩),
    (C9_getRealStatus_from_tasks [] "stored").1 rfl⟩

/-! ## C10 -/

/-- C10: in the EAV attribute loaders, a row's value is the first truthy
column in the order `string_value, number_value, boolean_value, date_value,
json_value`; when every column is falsy the reported value is falsy (no
usable value); consequently a numeric attribute stored as `0` is never
reported as the number `0`; and the loader records the chain value under
the row's attribute name. -/
theorem C10_eav_value_first_truthy_column (r : AttrRow) :
    (∀ v : JVal, (r.columns.filterMap id).find? JVal.truthy = some v →
      eavRowValue r = some v) ∧
    ((∀ v ∈ r.columns.filterMap id, v.truthy = false) →
      ∀ v : JVal, eavRowValue r = some v → v.truthy = false) ∧
    eavRowValue r ≠ some (.num 0) ∧
    (∀ data, (loadEavRow data r).lookup r.attribute_name
      = some ((eavRowValue r).getD .null)) := by
  refine ⟨?_, ?_, ?_, ?_⟩
  · intro v h
    exact jsOrChain_find _ _ h
  · intro hall v h
    have hmem := jsOrChain_mem _ _ h
    refine hall v (List.mem_filterMap.mpr ⟨some v, hmem, rfl⟩)
  · intro h
    rcases jsOrChain_last _ _ h with ht | hl
    · simp [JVal.truthy] at ht
    · have hcols : r.columns.getLast? = some (r.json_value.map .str) := rfl
      rw [hcols] at hl
      cases hj : r.json_value with
      | none => rw [hj] at hl; simp at hl
      | some s => rw [hj] at hl; simp at hl
  · intro data
    exact lookup_setKey_self _ _ _

/-- Witness for C10: a numeric `0` in `number_value` is skipped and the
boolean column is reported instead. -/
theorem C10_eav_value_witness :
    eavRowValue ⟨"price", none, some 0, some true, none, none⟩ = some (.bool true) :=
  (C10_eav_value_first_truthy_column ⟨"price", none, some 0, some true, none, none⟩).1
    (.bool true) rfl

/-! ## C1 -/

/-- The code's price ratio equals the claim's, under the amended multiplier
reading. -/
lemma priceRatio_eq_spec (g : Option GlobalPricingBreakdown) :
    priceRatio g = specPriceRatio specMultiplier g := by
  simp only [priceRatio, specPriceRatio, combinedMultiplier, jsOrQ_zero,
    jsOrQ_one_eq_specMultiplier]

/-- Pointwise agreement of the code's price with the amended claim price,
for a positive product count. -/
lemma productPrice_eq_spec (g : Option GlobalPricingBreakdown)
    (tp atp : Option ℚ) (count : ℕ) (hc : count ≠ 0) (p : CalcProduct) :
    productPriceWithFallback g (perProductFallbackPrice tp atp count) p
      = specProductPrice specMultiplier g tp atp count p := by
  have hcpos : (0 : ℚ) < (count : ℚ) := by
    exact_mod_cast Nat.pos_of_ne_zero hc
  have hfb : perProductFallbackPrice tp atp count
      = specFirstNonzero [tp, atp] / (count : ℚ) := by
    simp only [perProductFallbackPrice, finalTotalPrice, firstTruthyQ_eq_spec,
      if_neg hc]
  have hcond : (0 < perProductFallbackPrice tp atp count)
      ↔ (0 < specFirstNonzero [tp, atp]) := by
    rw [hfb, div_pos_iff]
    constructor
    · rintro (⟨h1, _⟩ | ⟨_, h2⟩)
      · exact h1
      · linarith
    · intro h
      exact Or.inl ⟨h, hcpos⟩
  have hcost : productTotalCost g p =
      (if 0 < specFirstNonzero [p.globalAdjustedPrice, p.adjustedPrice] then
        specFirstNonzero [p.globalAdjustedPrice, p.adjustedPrice]
      else
        specFirstNonzero
            [p.totalSale, p.originalSalePrice, p.salePrice, p.finalPrice, p.price]
          * specPriceRatio specMultiplier g) := by
    simp only [productTotalCost, firstTruthyQ_eq_spec, priceRatio_eq_spec]
  simp only [productPriceWithFallback, specProductPrice, hcost, hfb]
  exact if_congr (and_congr Iff.rfl (by rw [← hfb]; exact hcond)) rfl rfl

/-- C1 (amended): each product's reconstructed total price follows the
claim's formula, with the multiplier factors defaulting to 1 when absent,
non-numeric, **or zero**. -/
theorem C1_price_reconstruction (g : Option GlobalPricingBreakdown)
    (totalPrice actualTotalPrice : Option ℚ) (products : List CalcProduct) :
    getCalculationProductsPrices g totalPrice actualTotalPrice products
      = products.map
          (specProductPrice specMultiplier g totalPrice actualTotalPrice
            products.length) := by
  unfold getCalculationProductsPrices
  cases products with
  | nil => rfl
  | cons p0 rest =>
    apply List.map_congr_left
    intro p _
    exact productPrice_eq_spec g totalPrice actualTotalPrice _ (by simp) p

/-- C1 counterexample to the claim as written: a breakdown storing
`clientMultiplier = 0` (numeric, present).  The code's `|| 1` default makes
the ratio `1` and prices the product `5`; the claim's ratio
`clientMultiplier * deliveryMultiplier = 0` would zero the price and hand
the product the per-product share `100`. -/
theorem C1_counterexample :
    getCalculationProductsPrices (some ⟨some 0, none, none, none⟩) (some 100) none
        [⟨none, none, some 5, none, none, none, none⟩] = [5] ∧
    specProductPrice specMultiplierOriginal (some ⟨some 0, none, none, none⟩)
        (some 100) none 1 ⟨none, none, some 5, none, none, none, none⟩ = 100 := by
  constructor
  · norm_num [getCalculationProductsPrices, productPriceWithFallback, productTotalCost,
      priceRatio, combinedMultiplier, jsOrQ, firstTruthyQ, perProductFallbackPrice,
      finalTotalPrice]
  · norm_num [specProductPrice, specFirstNonzero, specPriceRatio, specMultiplierOriginal,
      List.filterMap, List.find?]

/-! ## C6 -/

/-- The code's markup ratio equals the claim's. -/
lemma pdfMarkupRatio_eq_spec (i : PdfQuoteInput) :
    pdfMarkupRatio i = specMarkupRatio i := by
  unfold pdfMarkupRatio specMarkupRatio
  by_cases h : 0 < pdfTotalAmount i ∧ 0 < pdfBaseTotal i
  · have hn : ¬(pdfTotalAmount i ≤ 0 ∨ pdfBaseTotal i ≤ 0) := by
      push_neg
      exact ⟨h.1, h.2⟩
    rw [if_pos h, if_neg hn]
  · have hp : pdfTotalAmount i ≤ 0 ∨ pdfBaseTotal i ≤ 0 := by
      rcases not_and_or.mp h with h1 | h1
      · exact Or.inl (not_lt.mp h1)
      · exact Or.inr (not_lt.mp h1)
    rw [if_neg h, if_pos hp]

/-- C6 (amended): the PDF grand total is the stored total when positive and
otherwise the sum of the reconstructed product and service totals; each
item total is its base price scaled by the markup ratio (1 when either
quantity is non-positive); the effective VAT rate is 0 for a non-`sk`
language and otherwise the organization's VAT rate, defaulting to 23 when
absent, non-numeric, **or zero**; and the amount payable is the grand total
times `1 + rate/100`. -/
theorem C6_pdf_totals (i : PdfQuoteInput) :
    pdfGlobalTotal i = specGrandTotal i ∧
    (∀ p ∈ i.products,
      computeProductTotal i p
        = computeBaseProductTotal (pdfCombinedMultiplier i) p * specMarkupRatio i) ∧
    (∀ s ∈ i.services,
      computeServiceTotal i s
        = serviceSalePrice s * pdfCombinedMultiplier i * specMarkupRatio i) ∧
    pdfEffectiveVatRate i
      = (if pdfLang i ≠ "sk" then 0
         else if i.vatRate.getD 0 = 0 then 23 else i.vatRate.getD 0) ∧
    pdfTotalWithVat i = pdfGlobalTotal i * (1 + pdfEffectiveVatRate i / 100) := by
  refine ⟨?_, ?_, ?_, ?_, ?_⟩
  · unfold pdfGlobalTotal specGrandTotal pdfTotalAmount
    rw [firstTruthyQ_eq_spec]
  · intro p _
    rw [computeProductTotal, pdfMarkupRatio_eq_spec]
  · intro s _
    rw [computeServiceTotal, pdfMarkupRatio_eq_spec]
  · unfold pdfEffectiveVatRate pdfIsForeign pdfVatRate
    by_cases hl : pdfLang i = "sk"
    · rw [if_neg (by simp [hl]), if_neg (by simp [hl])]
      cases hv : i.vatRate with
      | none => rfl
      | some v =>
        by_cases hz : v = 0
        · simp [jsOrQ, hz]
        · simp [jsOrQ, hz]
    · rw [if_pos (by simp [hl]), if_pos hl]
  · unfold pdfTotalWithVat pdfVatAmount
    ring

/-- C6 counterexample to the claim as written: an organization storing
`vatRate = 0` (numeric, present) with the default language `sk`.  The
code's `|| 23` default charges 23% VAT (amount payable 123 on a 100 total);
the claim's reading would charge the stored 0%. -/
theorem C6_counterexample :
    pdfEffectiveVatRate ⟨some 100, none, none, none, some 0, none, [], [], []⟩ = 23 ∧
    specEffectiveVatRateOriginal
        ⟨some 100, none, none, none, some 0, none, [], [], []⟩ = 0 ∧
    pdfTotalWithVat ⟨some 100, none, none, none, some 0, none, [], [], []⟩ = 123 := by
  refine ⟨?_, ?_, ?_⟩
  · norm_num [pdfEffectiveVatRate, pdfIsForeign, pdfLang, jsOrStr, pdfVatRate, jsOrQ]
  · norm_num [specEffectiveVatRateOriginal, pdfLang, jsOrStr]
  · norm_num [pdfTotalWithVat, pdfVatAmount, pdfGlobalTotal, pdfTotalAmount,
      pdfEffectiveVatRate, pdfIsForeign, pdfLang, jsOrStr, pdfVatRate, jsOrQ,
      firstTruthyQ]

/-! ## C2 -/

/-- A dot-split never produces an empty list of segments. -/
lemma splitDotChars_ne_nil (l : List Char) : splitDotChars l ≠ [] := by
  cases l with
  | nil => simp [splitDotChars]
  | cons c rest =>
    by_cases hc : c = '.'
    · simp [splitDotChars, hc]
    · simp only [splitDotChars, hc, if_false]
      cases splitDotChars rest with
      | nil => simp
      | cons g gs => simp

/-- A dot-split of a string never produces an empty list of segments. -/
lemma splitDot_ne_nil (s : String) : splitDot s ≠ [] := by
  unfold splitDot
  intro h
  exact splitDotChars_ne_nil s.data (List.map_eq_nil_iff.mp h)

/-- Dropping the 16-character prefix `calculationData.` recovers the
sub-key. -/
lemma strDrop_calcPrefix (sub : String) :
    strDrop ("calculationData." ++ sub) 16 = sub := by
  unfold strDrop
  rw [String.data_append]
  rw [show (16 : ℕ) = ("calculationData.".data).length from rfl, List.drop_left]

/-- A name of the shape `calculationData.<sub>` starts with the prefix. -/
lemma strStartsWith_calcPrefix (sub : String) :
    strStartsWith ("calculationData." ++ sub) "calculationData." = true := by
  unfold strStartsWith
  rw [String.data_append, List.isPrefixOf_iff_prefix]
  exact List.prefix_append _ _

/-- Writing a value at a dot path and reading the same path back gives the
value (whenever the write succeeds). -/
lemma getPath_setPath : ∀ (parts : List String) (l l' : List (String × JVal)) (v : JVal),
    parts ≠ [] → setPath l parts v = some l' → getPath l' parts = some v := by
  intro parts
  induction parts with
  | nil => intro l l' v h _; exact absurd rfl h
  | cons k rest ih =>
    intro l l' v _ hset
    cases rest with
    | nil =>
      simp only [setPath, Option.some_inj] at hset
      subst hset
      simp only [getPath]
      exact lookup_setKey_self l k v
    | cons k2 rest2 =>
      simp only [setPath] at hset
      cases hlk : l.lookup k with
      | none =>
        simp only [hlk] at hset
        rcases Option.map_eq_some'.mp hset with ⟨fs', hfs', rfl⟩
        have hlook := lookup_setKey_self l k (JVal.obj fs')
        simp only [getPath, hlook]
        exact ih [] fs' v (by simp) hfs'
      | some w =>
        simp only [hlk] at hset
        by_cases hw : w.truthy
        · rw [if_pos hw] at hset
          cases w with
          | obj fs =>
            rcases Option.map_eq_some'.mp hset with ⟨fs', hfs', rfl⟩
            have hlook := lookup_setKey_self l k (JVal.obj fs')
            simp only [getPath, hlook]
            exact ih fs fs' v (by simp) hfs'
          | str s => simp at hset
          | num q => simp at hset
          | bool b => simp at hset
          | null => simp [JVal.truthy] at hw
          | arr es => simp at hset
        · rw [if_neg hw] at hset
          rcases Option.map_eq_some'.mp hset with ⟨fs', hfs', rfl⟩
          have hlook := lookup_setKey_self l k (JVal.obj fs')
          simp only [getPath, hlook]
          exact ih [] fs' v (by simp) hfs'

/-- Folding assignments whose keys avoid `k` leaves `k`'s binding alone. -/
lemma lookup_foldl_setKey_not_mem (src : List (String × JVal))
    (tgt : List (String × JVal)) (k : String) (hk : k ∉ src.map Prod.fst) :
    (src.foldl (fun a kv => setKey a kv.1 kv.2) tgt).lookup k = tgt.lookup k := by
  induction src generalizing tgt with
  | nil => rfl
  | cons hd tl ih =>
    obtain ⟨k0, w0⟩ := hd
    simp only [List.map_cons, List.mem_cons] at hk
    push_neg at hk
    simp only [List.foldl_cons]
    rw [ih _ hk.2, lookup_setKey_ne _ _ _ _ hk.1]

/-- `Object.assign` copies each key of a duplicate-free source into the
target. -/
lemma lookup_assign_of_mem (src : List (String × JVal)) (tgt : List (String × JVal))
    (k : String) (w : JVal) (hmem : (k, w) ∈ src) (hnd : (src.map Prod.fst).Nodup) :
    (src.foldl (fun a kv => setKey a kv.1 kv.2) tgt).lookup k = some w := by
  induction src generalizing tgt with
  | nil => cases hmem
  | cons hd tl ih =>
    obtain ⟨k0, w0⟩ := hd
    simp only [List.map_cons, List.nodup_cons] at hnd
    simp only [List.foldl_cons]
    rcases List.mem_cons.mp hmem with heq | hmem'
    · cases heq
      rw [lookup_foldl_setKey_not_mem _ _ _ hnd.1]
      exact lookup_setKey_self _ _ _
    · exact ih (setKey tgt k0 w0) hmem' hnd.2

/-- C2: in the reconstruction loop of `getCalculationByShareToken`, (a) a
string value beginning with `[` or `{` is JSON-parsed first and kept as a
string when parsing fails; (b) an attribute named `calculationData.<sub>`
is placed at the dot-separated nested path `<sub>` of the reconstructed
`calculationData` (intermediate objects created as needed), leaving `data`
alone; (c) an attribute named exactly `calculationData` whose value is a
JSON object is merged into the reconstructed object key by key; (d) any
other attribute becomes a top-level field of the calculation record. -/
theorem C2_share_token_reconstruction (jparse : String → Option JVal)
    (st : List (String × JVal) × List (String × JVal)) (r : ShareAttrRow) :
    (∀ s : String, shareRowRawValue r = some (.str s) →
      ((strStartsWith s "[" || strStartsWith s "\x7b") = true →
        prepValue jparse (shareRowRawValue r) = some ((jparse s).getD (.str s))) ∧
      ((strStartsWith s "[" || strStartsWith s "\x7b") = false →
        prepValue jparse (shareRowRawValue r) = some (.str s))) ∧
    (∀ sub st', r.attribute_name = "calculationData." ++ sub →
      processShareAttrRow jparse st r = some st' →
      st'.1 = st.1 ∧
      getPath st'.2 (splitDot sub)
        = some ((prepValue jparse (shareRowRawValue r)).getD .null)) ∧
    (∀ fs st', r.attribute_name = "calculationData" →
      (prepValue jparse (shareRowRawValue r)).getD .null = .obj fs →
      (fs.map Prod.fst).Nodup →
      processShareAttrRow jparse st r = some st' →
      st'.1 = st.1 ∧ ∀ kw ∈ fs, st'.2.lookup kw.1 = some kw.2) ∧
    (strStartsWith r.attribute_name "calculationData." = false →
      r.attribute_name ≠ "calculationData" →
      processShareAttrRow jparse st r
        = some (setKey st.1 r.attribute_name
            ((prepValue jparse (shareRowRawValue r)).getD .null), st.2) ∧
      (setKey st.1 r.attribute_name
          ((prepValue jparse (shareRowRawValue r)).getD .null)).lookup
          r.attribute_name
        = some ((prepValue jparse (shareRowRawValue r)).getD .null)) := by
  refine ⟨?_, ?_, ?_, ?_⟩
  · intro s hs
    rw [hs]
    constructor
    · intro hstart
      simp only [prepValue, hstart, if_true]
      cases jparse s with
      | none => rfl
      | some j => rfl
    · intro hstart
      simp only [prepValue, hstart]
      rw [if_neg (by simp [hstart])]
  · intro sub st' hname hproc
    rw [processShareAttrRow, hname] at hproc
    rw [if_pos (strStartsWith_calcPrefix sub)] at hproc
    rw [strDrop_calcPrefix] at hproc
    rcases Option.map_eq_some'.mp hproc with ⟨cd', hcd', rfl⟩
    exact ⟨rfl, getPath_setPath _ _ _ _ (splitDot_ne_nil sub) hcd'⟩
  · intro fs st' hname hval hnd hproc
    rw [processShareAttrRow, hname] at hproc
    rw [if_neg (by decide), if_pos rfl] at hproc
    rw [hval] at hproc
    simp only [JVal.typeofObject, if_true, Option.some_inj] at hproc
    subst hproc
    refine ⟨rfl, fun kw hkw => ?_⟩
    exact lookup_assign_of_mem fs st.2 kw.1 kw.2 hkw hnd
  · intro hstart hname
    constructor
    · rw [processShareAttrRow]
      rw [if_neg (by simp [hstart]), if_neg hname]
    · exact lookup_setKey_self _ _ _

/-- Witness for C2: a flattened `calculationData.selectedClient.name`
attribute lands at the nested path, with a fresh intermediate object. -/
theorem C2_share_token_witness :
    (([("id", JVal.str "c1")],
        [("selectedClient", JVal.obj [("name", JVal.str "Bob")])]) :
          List (String × JVal) × List (String × JVal)).1
      = [("id", JVal.str "c1")] ∧
    getPath [("selectedClient", JVal.obj [("name", JVal.str "Bob")])]
        (splitDot "selectedClient.name")
      = some ((prepValue (fun _ => none)
          (shareRowRawValue
            ⟨"calculationData.selectedClient.name", some "Bob", none, none⟩)).getD
          .null) :=
  (C2_share_token_reconstruction (fun _ => none) ([("id", JVal.str "c1")], [])
      ⟨"calculationData.selectedClient.name", some "Bob", none, none⟩).2.1
    "selectedClient.name"
    ([("id", JVal.str "c1")], [("selectedClient", JVal.obj [("name", JVal.str "Bob")])])
    rfl rfl

/-! ## C3 -/

/-- `updateApprovalStatus` only touches the attributes table. -/
lemma updateApprovalStatus_shares (db : PortalDB) (eid ns aid : String) :
    (updateApprovalStatus db eid ns aid).shares = db.shares := by
  unfold updateApprovalStatus
  split <;> rfl

/-- The share update is the map of the per-row update. -/
lemma updateQuoteResponseDb_shares (db : PortalDB) (cid tok action : String)
    (comment : Option String) (now : Int) (attrId activityId : String) :
    (updateQuoteResponseDb db cid tok action comment now attrId activityId).shares
      = db.shares.map (respondShareUpdate cid tok action comment now) := by
  simp only [updateQuoteResponseDb]
  by_cases h : approvalStatusMap action ≠ ""
  · rw [if_pos h]
    cases hfe : findCalcEntity
        { db with shares := db.shares.map (respondShareUpdate cid tok action comment now) }
        EAV_TABLES_calculations cid with
    | none => simp only [hfe]
    | some e =>
      simp only [hfe]
      exact updateApprovalStatus_shares _ _ _ _
  · rw [if_neg h]

/-- The per-row update keeps the row's identity columns. -/
lemma respondShareUpdate_id (cid tok action : String) (comment : Option String)
    (now : Int) (s : CalculationShare) :
    (respondShareUpdate cid tok action comment now s).calculation_id = s.calculation_id ∧
    (respondShareUpdate cid tok action comment now s).token = s.token := by
  unfold respondShareUpdate
  split <;> exact ⟨rfl, rfl⟩

/-- After `updateApprovalStatus`, an `approvalStatus` attribute of the
entity exists and every such attribute carries the new status. -/
lemma updateApprovalStatus_attrs_spec (db : PortalDB) (eid ns aid : String) :
    (∃ a ∈ (updateApprovalStatus db eid ns aid).attributes,
      a.entity_id = eid ∧ a.attribute_name = "approvalStatus" ∧
        a.string_value = some ns) ∧
    (∀ a ∈ (updateApprovalStatus db eid ns aid).attributes,
      a.entity_id = eid → a.attribute_name = "approvalStatus" →
        a.string_value = some ns) := by
  unfold updateApprovalStatus
  by_cases hex : db.attributes.any
      (fun a => a.entity_id == eid && a.attribute_name == "approvalStatus") = true
  · rw [if_pos hex]
    constructor
    · rcases List.any_eq_true.mp hex with ⟨a₀, ha₀, hcond⟩
      simp only [Bool.and_eq_true, beq_iff_eq] at hcond
      refine ⟨{ a₀ with string_value := some ns }, ?_, hcond.1, hcond.2, rfl⟩
      refine List.mem_map.mpr ⟨a₀, ha₀, ?_⟩
      rw [if_pos (by simp [beq_iff_eq, hcond.1, hcond.2])]
    · intro a ha hae han
      rcases List.mem_map.mp ha with ⟨orig, horig, rfl⟩
      by_cases hc : (orig.entity_id == eid && orig.attribute_name == "approvalStatus") = true
      · rw [if_pos hc] at hae han ⊢
      · rw [if_neg hc] at hae han ⊢
        exact absurd (by simp [beq_iff_eq, hae, han]) hc
  · rw [if_neg hex]
    constructor
    · refine ⟨⟨aid, eid, "approvalStatus", some ns⟩, ?_, rfl, rfl, rfl⟩
      simp
    · intro a ha hae han
      rcases List.mem_append.mp ha with h | h
      · exact absurd (List.any_eq_true.mpr ⟨a, h, by simp [beq_iff_eq, hae, han]⟩) hex
      · simp only [List.mem_singleton] at h
        subst h
        rfl

/-- A question changes no attribute. -/
lemma updateQuoteResponseDb_attrs_question (db : PortalDB) (cid tok : String)
    (comment : Option String) (now : Int) (attrId activityId : String) :
    (updateQuoteResponseDb db cid tok "question_received" comment now
        attrId activityId).attributes = db.attributes := by
  simp only [updateQuoteResponseDb]
  rw [if_neg (by simp [approvalStatusMap])]

/-- C3 (amended): `updateQuoteResponse` returns `false` when no share row
matches the pair or when the matching share has a **non-null, non-zero**
`expires_at` in the past; otherwise it returns `true`, records the
response on every matching share (status `responded` exactly for
`approved`, `active` otherwise), sets the calculation's `approvalStatus`
EAV attribute per the action map, and leaves it unchanged for
`question_received`. -/
theorem C3_update_quote_response (db : PortalDB) (cid tok action : String)
    (comment : Option String) (now : Int) (attrId activityId : String)
    (w : Except Unit (Nat × String)) :
    (db.shares.find? (fun s => s.calculation_id == cid && s.token == tok) = none →
      (updateQuoteResponse db cid tok action comment now attrId activityId w).1
        = false) ∧
    (∀ share e,
      db.shares.find? (fun s => s.calculation_id == cid && s.token == tok)
        = some share →
      share.expires_at = some e → e ≠ 0 → e < now →
      (updateQuoteResponse db cid tok action comment now attrId activityId w).1
        = false) ∧
    (∀ share,
      db.shares.find? (fun s => s.calculation_id == cid && s.token == tok)
        = some share →
      shareExpired share now = false →
      (updateQuoteResponse db cid tok action comment now attrId activityId w).1
        = true ∧
      (∀ s ∈ (updateQuoteResponse db cid tok action comment now attrId
          activityId w).2.1.shares,
        s.calculation_id = cid → s.token = tok →
        s.status = (if action = "approved" then "responded" else "active") ∧
        s.client_response = some action ∧ s.responded_at = some now) ∧
      (approvalStatusMap action ≠ "" → ∀ ent,
        findCalcEntity
            { db with
              shares := db.shares.map (respondShareUpdate cid tok action comment now) }
            EAV_TABLES_calculations cid = some ent →
        (∃ a ∈ (updateQuoteResponse db cid tok action comment now attrId
            activityId w).2.1.attributes,
          a.entity_id = ent.id ∧ a.attribute_name = "approvalStatus" ∧
            a.string_value = some (approvalStatusMap action)) ∧
        (∀ a ∈ (updateQuoteResponse db cid tok action comment now attrId
            activityId w).2.1.attributes,
          a.entity_id = ent.id → a.attribute_name = "approvalStatus" →
            a.string_value = some (approvalStatusMap action))) ∧
      (action = "question_received" →
        (updateQuoteResponse db cid tok action comment now attrId
            activityId w).2.1.attributes = db.attributes)) := by
  refine ⟨?_, ?_, ?_⟩
  · intro h
    simp only [updateQuoteResponse, h]
  · intro share e hfind he hz hlt
    have hexp : shareExpired share now = true := by
      simp [shareExpired, he, hz, hlt]
    simp only [updateQuoteResponse, hfind, hexp, if_true]
  · intro share hfind hexp
    have hrw : updateQuoteResponse db cid tok action comment now attrId activityId w
        = (true,
            updateQuoteResponseDb db cid tok action comment now attrId activityId,
            [⟨"/api/webhooks/quote-response", cid, tok, action,
              jsCommentOrNull comment⟩]) := by
      simp only [updateQuoteResponse, hfind, hexp, Bool.false_eq_true, if_false]
    rw [hrw]
    refine ⟨rfl, ?_, ?_, ?_⟩
    · show ∀ s ∈ (updateQuoteResponseDb db cid tok action comment now attrId
          activityId).shares, _
      rw [updateQuoteResponseDb_shares]
      intro s hs hcid htok
      rcases List.mem_map.mp hs with ⟨orig, horig, rfl⟩
      have hid := respondShareUpdate_id cid tok action comment now orig
      rw [hid.1] at hcid
      rw [hid.2] at htok
      have hc : (orig.calculation_id == cid && orig.token == tok) = true := by
        simp [beq_iff_eq, hcid, htok]
      unfold respondShareUpdate
      rw [if_pos hc]
      exact ⟨rfl, rfl, rfl⟩
    · intro hne ent hent
      have hattr : (updateQuoteResponseDb db cid tok action comment now attrId
          activityId).attributes
          = (updateApprovalStatus
              { db with
                shares := db.shares.map (respondShareUpdate cid tok action comment now) }
              ent.id (approvalStatusMap action) attrId).attributes := by
        simp only [updateQuoteResponseDb]
        rw [if_pos hne, hent]
      show (∃ a ∈ (updateQuoteResponseDb db cid tok action comment now attrId
          activityId).attributes, _) ∧ _
      rw [hattr]
      exact updateApprovalStatus_attrs_spec _ _ _ _
    · intro hq
      subst hq
      exact updateQuoteResponseDb_attrs_question db cid tok comment now attrId activityId

/-- Witness for C3 at a concrete database: a matching, never-expiring
share makes the update succeed. -/
theorem C3_update_quote_response_witness :
    (updateQuoteResponse dbC3b "c2" "t2" "approved" none 100 "a9" "act9"
        (.ok (200, ""))).1 = true :=
  ((C3_update_quote_response dbC3b "c2" "t2" "approved" none 100 "a9" "act9"
      (.ok (200, ""))).2.2
    ⟨"s2", "c2", "t2", none, "active", none, none, none, none, 0⟩ rfl rfl).1

/-- C3 counterexample to the claim as written: a share whose `expires_at`
is `0` (the Unix epoch, which lies in the past at `now = 100`) is **not**
treated as expired — the zero is falsy, the expiry test is skipped and the
update succeeds. -/
theorem C3_counterexample :
    (updateQuoteResponse dbC3 "c1" "t1" "approved" none 100 "a1" "act1"
        (.ok (200, ""))).1 = true ∧
    (dbC3.shares.find? (fun s => s.calculation_id == "c1" && s.token == "t1")).map
        (fun s => s.expires_at) = some (some 0) ∧
    (0 : Int) < 100 := by
  refine ⟨rfl, rfl, by decide⟩

/-! ## C7 -/

/-- C7: the webhook result changes nothing: `updateQuoteResponse` and the
respond-waiting route return identical results for any two webhook
outcomes; on the success path `updateQuoteResponse` returns `true` and
records the forwarded `/api/webhooks/quote-response` request, and the
respond-waiting route redirects to the dashboard success page and records
the forwarded request. -/
theorem C7_webhook_nonblocking (db : PortalDB) (cid tok action : String)
    (comment c2 : Option String) (now : Int) (attrId activityId : String)
    (calcIdOpt sess : Option String) (w₁ w₂ : Except Unit (Nat × String)) :
    updateQuoteResponse db cid tok action comment now attrId activityId w₁
      = updateQuoteResponse db cid tok action comment now attrId activityId w₂ ∧
    respondWaiting db calcIdOpt sess c2 now activityId w₁
      = respondWaiting db calcIdOpt sess c2 now activityId w₂ ∧
    (∀ share,
      db.shares.find? (fun s => s.calculation_id == cid && s.token == tok)
        = some share →
      shareExpired share now = false →
      (updateQuoteResponse db cid tok action comment now attrId activityId w₁).1
        = true ∧
      (updateQuoteResponse db cid tok action comment now attrId activityId w₁).2.2
        = [⟨"/api/webhooks/quote-response", cid, tok, action,
            jsCommentOrNull comment⟩]) ∧
    (∀ id name c share, calcIdOpt = some id → sess = some name → c2 = some c →
      ¬(c = "" ∨ strTrim c = "") → pickLatestActiveShare db id = some share →
      (respondWaiting db calcIdOpt sess c2 now activityId w₁).1
        = .redirect "/dashboard?success=response_sent" 303 ∧
      (respondWaiting db calcIdOpt sess c2 now activityId w₁).2.2
        = [⟨"/api/webhooks/quote-response", id, share.token, "question_received",
            some (strTrim c)⟩]) := by
  refine ⟨rfl, rfl, ?_, ?_⟩
  · intro share hfind hexp
    simp only [updateQuoteResponse, hfind, hexp, Bool.false_eq_true, if_false]
    exact ⟨trivial, trivial⟩
  · intro id name c share hid hsess hc2 hcond hshare
    subst hid
    subst hsess
    subst hc2
    simp only [respondWaiting, Option.getD_some, if_neg hcond, hshare]
    exact ⟨trivial, trivial⟩

/-- Witness for C7 at a concrete database and a failing webhook. -/
theorem C7_webhook_nonblocking_witness :
    (updateQuoteResponse dbC7 "c7" "t7" "rejected" (some "hm") 100 "a" "b"
        (.error ())).1 = true ∧
    (respondWaiting dbC7 (some "c7") (some "Alice") (some "why?") 100 "b"
        (.error ())).1
      = RouteResult.redirect "/dashboard?success=response_sent" 303 :=
  ⟨((C7_webhook_nonblocking dbC7 "c7" "t7" "rejected" (some "hm") (some "why?") 100
        "a" "b" (some "c7") (some "Alice") (.error ()) (.ok (200, ""))).2.2.1
      ⟨"s7", "c7", "t7", none, "active", none, none, none, none, 5⟩ rfl rfl).1,
    ((C7_webhook_nonblocking dbC7 "c7" "t7" "rejected" (some "hm") (some "why?") 100
        "a" "b" (some "c7") (some "Alice") (.error ()) (.ok (200, ""))).2.2.2
      "c7" "Alice" "why?"
      ⟨"s7", "c7", "t7", none, "active", none, none, none, none, 5⟩
      rfl rfl rfl (by decide) rfl).1⟩

/-! ## C4 -/

/-- The serialized session carries its expiry in the `expiresAt` field. -/
lemma objGet_sessionJVal (s : SessionPayload) (e : ℚ) :
    objGet (sessionJVal s e) "expiresAt" = some (.num e) := rfl

/-- The expiry comparison on a serialized session is the numeric
comparison. -/
lemma jsLtNum_session (s : SessionPayload) (e t : ℚ) :
    jsLtNum (objGet (sessionJVal s e)  "expiresAt") t = decide (e < t) := by
  rw [objGet_sessionJVal]
  rfl

/-- Parsing a token that decodes to a serialized session is the expiry
test on its `expiresAt`. -/
lemma parseSessionToken_session (dec : String → Option JVal) (tok : String)
    (s : SessionPayload) (e t : ℚ) (h : dec tok = some (sessionJVal s e)) :
    parseSessionToken dec tok t = if e < t then none else some (sessionJVal s e) := by
  simp only [parseSessionToken, h, sessionJVal, objGet, jsLtNum, JVal.toNumber,
    List.lookup]
  by_cases hlt : e < t
  · rw [if_pos (by simpa using hlt), if_pos hlt]
  · rw [if_neg (by simpa using hlt), if_neg hlt]

/-- C4 (amended): with `enc`/`dec` the (abstract) base64-of-JSON codec, a
token created at `now` parses back to the session extended with
`expiresAt = now + 24h` at any time **at or before** `expiresAt`, parses to
`null` strictly after `expiresAt`, and a token that does not decode to
JSON (or decodes to JSON `null`) parses to `null`; any other decoded value
is returned without shape validation, subject only to the `expiresAt`
comparison. -/
theorem C4_session_token_roundtrip (enc : JVal → String) (dec : String → Option JVal)
    (s : SessionPayload) (now t : ℚ)
    (hdec : dec (enc (sessionJVal s (now + 24 * 60 * 60 * 1000)))
      = some (sessionJVal s (now + 24 * 60 * 60 * 1000))) :
    (t ≤ now + 24 * 60 * 60 * 1000 →
      parseSessionToken dec (createSessionToken enc s now) t
        = some (sessionJVal s (now + 24 * 60 * 60 * 1000))) ∧
    (now + 24 * 60 * 60 * 1000 < t →
      parseSessionToken dec (createSessionToken enc s now) t = none) ∧
    (∀ tok, dec tok = none → parseSessionToken dec tok t = none) ∧
    (∀ tok, dec tok = some .null → parseSessionToken dec tok t = none) ∧
    (∀ tok v, dec tok = some v → v ≠ .null →
      jsLtNum (objGet v "expiresAt") t = false →
      parseSessionToken dec tok t = some v) := by
  refine ⟨?_, ?_, ?_, ?_, ?_⟩
  · intro ht
    rw [show createSessionToken enc s now
        = enc (sessionJVal s (now + 24 * 60 * 60 * 1000)) from rfl]
    rw [parseSessionToken_session dec _ s (now + 24 * 60 * 60 * 1000) t hdec]
    exact if_neg (not_lt.mpr ht)
  · intro ht
    rw [show createSessionToken enc s now
        = enc (sessionJVal s (now + 24 * 60 * 60 * 1000)) from rfl]
    rw [parseSessionToken_session dec _ s (now + 24 * 60 * 60 * 1000) t hdec]
    exact if_pos ht
  · intro tok h
    simp [parseSessionToken, h]
  · intro tok h
    simp [parseSessionToken, h]
  · intro tok v h hv hlt
    cases v with
    | null => exact absurd rfl hv
    | str s' => simp [parseSessionToken, h, hlt]
    | num q => simp [parseSessionToken, h, hlt]
    | bool b => simp [parseSessionToken, h, hlt]
    | arr es => simp [parseSessionToken, h, hlt]
    | obj fs => simp [parseSessionToken, h, hlt]

/-- Witness for C4 with a concrete codec pair, parsing well before expiry. -/
theorem C4_session_token_witness :
    parseSessionToken decC4 (createSessionToken encC4 sessionC4 0) 100
      = some (sessionJVal sessionC4 (0 + 24 * 60 * 60 * 1000)) :=
  (C4_session_token_roundtrip encC4 decC4 sessionC4 0 100
      (by simp [decC4, encC4, createSessionToken, sessionJVal]; norm_num)).1
    (by norm_num)

/-- C4 counterexample to the claim as written: parsing exactly **at**
`expiresAt` returns the session, not `null` — the code drops the session
only when `expiresAt < Date.now()` is strict. -/
theorem C4_counterexample :
    parseSessionToken decC4 (createSessionToken encC4 sessionC4 0) 86400000
      = some (sessionJVal sessionC4 86400000) ∧
    (0 : ℚ) + 24 * 60 * 60 * 1000 = 86400000 := by
  constructor
  · rw [show createSessionToken encC4 sessionC4 0 = "tok" from rfl]
    rw [parseSessionToken_session decC4 "tok" sessionC4 86400000 86400000
        (by simp [decC4])]
    norm_num
  · norm_num

/-! ## C5 -/

/-- C5 (amended): the login route returns 503 when the database is not
configured and 500 when the body fails to parse; with a configured
database it returns 400 when the `email` field is missing, not a string,
or the empty string; 401 when the trimmed lower-cased email matches no
customer; and 200 with the session cookie and the customer's name and
businessName otherwise. -/
theorem C5_login_route (dbConfigured : Bool)
    (findCustomer : String → Option PortalCustomer)
    (body : Option (List (String × JVal))) :
    (dbConfigured = false →
      (loginPOST dbConfigured findCustomer body).status = 503) ∧
    (dbConfigured = true → body = none →
      (loginPOST dbConfigured findCustomer body).status = 500) ∧
    (dbConfigured = true → ∀ b, body = some b →
      (b.lookup "email" = none ∨
        (∃ v, b.lookup "email" = some v ∧ ∀ s, v ≠ .str s) ∨
        b.lookup "email" = some (.str "")) →
      (loginPOST dbConfigured findCustomer body).status = 400) ∧
    (dbConfigured = true → ∀ b e, body = some b →
      b.lookup "email" = some (.str e) → e ≠ "" →
      findCustomer (jsNormalizeEmail e) = none →
      (loginPOST dbConfigured findCustomer body).status = 401) ∧
    (dbConfigured = true → ∀ b e c, body = some b →
      b.lookup "email" = some (.str e) → e ≠ "" →
      findCustomer (jsNormalizeEmail e) = some c →
      loginPOST dbConfigured findCustomer body
        = ⟨200, some ⟨c.id, c.entityId, c.name, jsNormalizeEmail e, c.organizationId⟩,
            true, some c.name, some c.businessName⟩) := by
  refine ⟨?_, ?_, ?_, ?_, ?_⟩
  · intro h
    subst h
    rfl
  · intro h hb
    subst h
    subst hb
    rfl
  · intro h b hb hcase
    subst h
    subst hb
    rcases hcase with hnone | ⟨v, hv, hns⟩ | hemp
    · simp [loginPOST, hnone]
    · cases v with
      | str s => exact absurd rfl (hns s)
      | num q => simp [loginPOST, hv]
      | bool b' => simp [loginPOST, hv]
      | null => simp [loginPOST, hv]
      | arr es => simp [loginPOST, hv]
      | obj fs => simp [loginPOST, hv]
    · simp [loginPOST, hemp]
  · intro h b e hb he hne hfind
    subst h
    subst hb
    simp [loginPOST, he, hne, hfind]
  · intro h b e c hb he hne hfind
    subst h
    subst hb
    simp [loginPOST, he, hne, hfind]

/-- Witness for C5: an unknown email gets 401. -/
theorem C5_login_route_witness :
    (loginPOST true (fun _ => none) (some [("email", JVal.str "a@b.sk")])).status
      = 401 :=
  (C5_login_route true (fun _ => none)
      (some [("email", JVal.str "a@b.sk")])).2.2.2.1 rfl
    [("email", JVal.str "a@b.sk")] "a@b.sk" rfl rfl (by decide) rfl

/-- C5 counterexample to the claim as written: an empty-string email is
present and a string, so the claim's only applicable clause predicts 401
(no customer matches), but the route's `!email` truthiness check rejects it
with 400 before any lookup. -/
theorem C5_counterexample :
    (loginPOST true (fun _ => none) (some [("email", JVal.str "")])).status = 400 ∧
    (loginPOST true (fun _ => none) (some [("email", JVal.str "")])).status ≠ 401 := by
  constructor
  · rfl
  · decide

/-! ## C8 -/

/-- C8 (amended): both helpers memoize.  `translateText` returns the
cached translation for a previously seen `(text, sourceLang, targetLang)`
key (whatever the API would now answer) and caches fresh successful
results; `getLogoBase64` returns the cached logo once loaded and caches a
fresh successful read. -/
theorem C8_memoization (cache : List (String × String))
    (text targetLang sourceLang : String) (api₁ api₂ : Option String)
    (cached : String) (logoCache readResult : Option String) :
    (¬(text = "" ∨ targetLang = sourceLang ∨ targetLang = "sk") →
      cache.lookup (text ++ ":" ++ sourceLang ++ ":" ++
          jsOrStr (TRANSLATE_LANG_MAP.lookup targetLang) targetLang) = some cached →
      translateText cache text targetLang sourceLang api₁ = (cached, cache) ∧
      translateText cache text targetLang sourceLang api₁
        = translateText cache text targetLang sourceLang api₂) ∧
    (∀ t, ¬(text = "" ∨ targetLang = sourceLang ∨ targetLang = "sk") →
      cache.lookup (text ++ ":" ++ sourceLang ++ ":" ++
          jsOrStr (TRANSLATE_LANG_MAP.lookup targetLang) targetLang) = none →
      api₁ = some t →
      translateText cache text targetLang sourceLang api₁
        = (t, setKey cache (text ++ ":" ++ sourceLang ++ ":" ++
            jsOrStr (TRANSLATE_LANG_MAP.lookup targetLang) targetLang) t)) ∧
    (∀ c, logoCache = some c → c ≠ "" →
      getLogoBase64 logoCache readResult = (c, logoCache)) ∧
    (∀ b, readResult = some b → (logoCache = none ∨ logoCache = some "") →
      getLogoBase64 logoCache readResult
        = ("data:image/jpeg;base64," ++ b, some ("data:image/jpeg;base64," ++ b))) := by
  refine ⟨?_, ?_, ?_, ?_⟩
  · intro hskip hhit
    constructor
    · simp [translateText, hskip, hhit]
    · simp [translateText, hskip, hhit]
  · intro t hskip hmiss hapi
    subst hapi
    simp [translateText, hskip, hmiss]
  · intro c hc hne
    subst hc
    have hemp : c.isEmpty = false := by
      cases he : c.isEmpty
      · rfl
      · exact absurd ((String.isEmpty_iff c).mp he) hne
    simp [getLogoBase64, hemp]
  · intro b hb hcache
    subst hb
    rcases hcache with h | h <;> subst h <;> rfl

/-- Witness for C8: a cache hit short-circuits the API, a cached logo is
returned as-is. -/
theorem C8_memoization_witness :
    translateText [("Ahoj:sk:de", "Hallo")] "Ahoj" "de-AT" "sk" (some "X")
      = ("Hallo", [("Ahoj:sk:de", "Hallo")]) ∧
    getLogoBase64 (some "CACHED") (some "B") = ("CACHED", some "CACHED") :=
  ⟨((C8_memoization [("Ahoj:sk:de", "Hallo")] "Ahoj" "de-AT" "sk" (some "X")
        (some "Y") "Hallo" (some "CACHED") (some "B")).1 (by decide) rfl).1,
    (C8_memoization [("Ahoj:sk:de", "Hallo")] "Ahoj" "de-AT" "sk" (some "X")
        (some "Y") "Hallo" (some "CACHED") (some "B")).2.2.1 "CACHED" rfl
      (by decide)⟩

/-- C8 counterexample to the claim as written: the very same call returns
different results depending only on the module-level cache left by earlier
calls — both helpers hold memoization state between invocations. -/
theorem C8_counterexample :
    (translateText [("Ahoj:sk:de", "Hallo")] "Ahoj" "de-AT" "sk" (some "X")).1
      ≠ (translateText [] "Ahoj" "de-AT" "sk" (some "X")).1 ∧
    (getLogoBase64 (some "CACHED") (some "B")).1
      ≠ (getLogoBase64 none (some "B")).1 := by
  constructor
  · decide
  · decide

end ClientZone
